import Mathlib

/-!
Verification of the llm-proxy worker (`src/index.js`): a single-handler HTTP
relay that validates the origin and prompt of an inbound request, forwards
the prompt to an upstream streaming API, and relays the streamed response
back while enforcing a character cap. The development embeds the handler,
its validation gate, and the recursive `push` relay loop, together with the
stateful text decoding the loop relies on, and proves the testable
properties of the specification against them.
-/

namespace LlmProxy

/-- JSON values as produced by `request.json()`. Numbers are modelled as
integers; the behaviours under study only exercise integral numbers. -/
inductive JsonValue where
  | null
  | bool (b : Bool)
  | num (n : Int)
  | str (s : String)
  | arr (elems : List JsonValue)
  | obj (fields : List (String × JsonValue))

/-- JS truthiness of a JSON value, as tested by `if (!prompt)`: `null`, `false`,
`0` and the empty string are falsy, every array and object is truthy. -/
def truthy : JsonValue → Bool
  | .null => false
  | .bool b => b
  | .num n => n != 0
  | .str s => s != ""
  | .arr _ => true
  | .obj _ => true

/-- Field lookup on a parsed non-null JSON value: the named field of an
object, `undefined` (`none`) for any other value. The JS destructuring
`let (prompt) = body` additionally THROWS on a null body; that path is
modelled at its use site, `destructurePrompt`. -/
def getProp (v : JsonValue) (k : String) : Option JsonValue :=
  match v with
  | .obj fields => fields.lookup k
  | _ => none

/-- The destructuring `let (prompt) = body` of line 48: a TypeError
(`Except.error`) when the parsed body is a top-level JSON null, the
`prompt` property otherwise. -/
def destructurePrompt : JsonValue → Except Unit (Option JsonValue)
  | .null => .error ()
  | v => .ok (getProp v "prompt")

/-- UTF-16 width of a Unicode scalar value: astral characters occupy two
code units (a surrogate pair), all others one. -/
def utf16Width (c : Char) : Nat :=
  if c.toNat < 0x10000 then 1 else 2

/-- Length of a decoded text in UTF-16 code units, which is what the JS
`length` property of a string reports. -/
def jsLength (cs : List Char) : Nat :=
  (cs.map utf16Width).sum

/-- JS `length` of a string value. -/
def jsStrLength (s : String) : Nat :=
  jsLength s.data

/-- JS WhiteSpace and LineTerminator characters, which ToNumber strips
from both ends of a string. -/
def isJsWhitespace (c : Char) : Bool :=
  let n := c.toNat
  n = 9 || n = 10 || n = 11 || n = 12 || n = 13 || n = 32 || n = 0xA0 ||
  n = 0x1680 || (0x2000 ≤ n && n ≤ 0x200A) || n = 0x2028 || n = 0x2029 ||
  n = 0x202F || n = 0x205F || n = 0x3000 || n = 0xFEFF

/-- Strip JS whitespace from both ends. -/
def trimJs (cs : List Char) : List Char :=
  ((cs.dropWhile isJsWhitespace).reverse.dropWhile isJsWhitespace).reverse

/-- Value of a decimal digit character. -/
def digitVal (c : Char) : Nat := c.toNat - 48

/-- Value of a digit string in the given base. -/
def digitsVal (base : Nat) (val : Char → Nat) (ds : List Char) : Nat :=
  ds.foldl (fun acc c => acc * base + val c) 0

/-- Hexadecimal digit test. -/
def isHexDigitJs (c : Char) : Bool :=
  c.isDigit || ('a' ≤ c && c ≤ 'f') || ('A' ≤ c && c ≤ 'F')

/-- Value of a hexadecimal digit character. -/
def hexVal (c : Char) : Nat :=
  if c.isDigit then c.toNat - 48
  else if 'a' ≤ c && c ≤ 'f' then c.toNat - 87
  else c.toNat - 55

/-- Exponent part of a StrDecimalLiteral: empty, or e/E with an optional
sign and at least one digit; `none` when malformed. -/
def parseExponent : List Char → Option Int
  | [] => some 0
  | c :: r =>
    if c = 'e' || c = 'E' then
      match r with
      | '+' :: t =>
        if t ≠ [] && t.all Char.isDigit then some (digitsVal 10 digitVal t : Int)
        else none
      | '-' :: t =>
        if t ≠ [] && t.all Char.isDigit then some (-(digitsVal 10 digitVal t : Int))
        else none
      | t =>
        if t ≠ [] && t.all Char.isDigit then some (digitsVal 10 digitVal t : Int)
        else none
    else none

/-- An unsigned decimal literal (digits, optional fraction, optional
exponent), as mantissa digits and a power-of-ten scale; `none` when the
whole input is not such a literal. -/
def parseDec (cs : List Char) : Option (Nat × Int) :=
  let ip := cs.takeWhile Char.isDigit
  let r1 := cs.dropWhile Char.isDigit
  match r1 with
  | '.' :: r =>
    let fp := r.takeWhile Char.isDigit
    let r2 := r.dropWhile Char.isDigit
    if ip.isEmpty && fp.isEmpty then none
    else
      match parseExponent r2 with
      | some e => some (digitsVal 10 digitVal (ip ++ fp), e - (fp.length : Int))
      | none => none
  | _ =>
    if ip.isEmpty then none
    else
      match parseExponent r1 with
      | some e => some (digitsVal 10 digitVal ip, e)
      | none => none

/-- A JS number as ToNumber produces it for the inputs of this program:
NaN, a signed infinity, or a finite value written as mantissa times a
power of ten. The model computes with exact decimal arithmetic; it agrees
with JS double semantics on every comparison whose operands are exactly
representable (in particular all integers up to 2 to the 53rd), and could
differ only where 53-bit rounding straddles the compared threshold. -/
inductive JsNum where
  | nan
  | inf (pos : Bool)
  | fin (mantissa : Int) (exp10 : Int)
  deriving DecidableEq

/-- An optionally signed decimal literal or Infinity. -/
def jsSignedDec (t : List Char) : JsNum :=
  let sb : Bool × List Char :=
    match t with
    | '+' :: r => (false, r)
    | '-' :: r => (true, r)
    | r => (false, r)
  if sb.2 = "Infinity".data then .inf (!sb.1)
  else
    match parseDec sb.2 with
    | some me => .fin (if sb.1 then -(me.1 : Int) else (me.1 : Int)) me.2
    | none => .nan

/-- ES ToNumber of a string (the StringNumericLiteral grammar): trimmed
whitespace, empty means zero, unsigned hex/octal/binary forms, otherwise a
signed decimal literal or Infinity; anything else is NaN. -/
def jsStringToNum (s : String) : JsNum :=
  match trimJs s.data with
  | [] => .fin 0 0
  | '0' :: c :: r =>
    if c = 'x' || c = 'X' then
      if r ≠ [] && r.all isHexDigitJs then .fin (digitsVal 16 hexVal r : Int) 0
      else .nan
    else if c = 'o' || c = 'O' then
      if r ≠ [] && r.all (fun d => '0' ≤ d && d ≤ '7') then
        .fin (digitsVal 8 digitVal r : Int) 0
      else .nan
    else if c = 'b' || c = 'B' then
      if r ≠ [] && r.all (fun d => d = '0' || d = '1') then
        .fin (digitsVal 2 digitVal r : Int) 0
      else .nan
    else jsSignedDec ('0' :: c :: r)
  | t => jsSignedDec t

/-- ES ToString of a JSON value: null prints as "null", arrays print as
the comma-join of their elements where a null ELEMENT joins as the empty
string, objects print as the usual object tag. -/
def jsToString : JsonValue → String
  | .null => "null"
  | .bool b => cond b "true" "false"
  | .num n => toString n
  | .str s => s
  | .obj _ => "[object Object]"
  | .arr elems =>
    String.intercalate "," (elems.attach.map fun x =>
      match x with
      | ⟨.null, _⟩ => ""
      | ⟨v, _⟩ => jsToString v)

/-- ES ToNumber of a JSON value: null is 0, booleans are 0 or 1, numbers
are themselves, strings parse per the numeric-literal grammar, arrays
coerce through their ToString (ToPrimitive) and objects are NaN
("[object Object]"). -/
def jsToNumber : JsonValue → JsNum
  | .null => .fin 0 0
  | .bool b => .fin (cond b 1 0) 0
  | .num n => .fin n 0
  | .str s => jsStringToNum s
  | .arr elems => jsStringToNum (jsToString (.arr elems))
  | .obj _ => .nan

/-- The JS comparison `x > bound` for a coerced number against an integer
bound: false for NaN, the sign for an infinity, and an exact integer
comparison after clearing the power of ten otherwise. -/
def jsGreater : JsNum → Int → Bool
  | .nan, _ => false
  | .inf pos, _ => pos
  | .fin m e, bound =>
    if 0 ≤ e then decide (bound < m * 10 ^ e.toNat)
    else decide (bound * 10 ^ (-e).toNat < m)

/-- The JS property read `prompt.length`: a number for strings (their
UTF-16 length) and arrays (their element count), the raw `length` field
value for objects, `undefined` (`none`) for everything else. -/
def lengthProp : JsonValue → Option JsonValue
  | .str s => some (.num (jsStrLength s : Int))
  | .arr elems => some (.num (elems.length : Int))
  | .obj fields => fields.lookup "length"
  | _ => none

/-- Configuration constant at the top of `index.js`. -/
def ALLOWED_ORIGIN : String := "https://koomen.dev"

/-- Configuration constant at the top of `index.js`: maximum characters
allowed in the prompt. -/
def MAX_PROMPT_LENGTH : Nat := 1000

/-- Configuration constant at the top of `index.js`: maximum characters
allowed in the response. -/
def MAX_RESPONSE_LENGTH : Nat := 5000

/-- The configuration surface of the worker. The defaults are the constants
of `index.js`; the comment there invites customising them, and the concrete
test scenarios of the specification override the two caps. -/
structure Config where
  allowedOrigin : String := ALLOWED_ORIGIN
  maxPromptLength : Nat := MAX_PROMPT_LENGTH
  maxResponseLength : Nat := MAX_RESPONSE_LENGTH

/-- An inbound HTTP request as the handler reads it: the `Origin` header
(`none` when absent), the method, and the result of `request.json()`
(`Except.error` models a JSON parse failure). -/
structure HRequest where
  origin : Option String
  method : String
  body : Except Unit JsonValue

/-- An HTTP response as constructed by `new Response(body, init)`; `body =
none` models a `null` or `undefined` body argument. -/
structure HResponse where
  status : Nat
  body : Option String
  headers : List (String × String)
  deriving DecidableEq

/-- Result of the validation part of `handleRequest`: an early response,
the validated prompt value that the upstream call will carry, or an
un-caught TypeError thrown by the destructuring of a null body. -/
inductive GateResult where
  | respond (r : HResponse)
  | forward (prompt : JsonValue)
  | throw

/-- CORS headers of the preflight response. -/
def preflightHeaders (cfg : Config) : List (String × String) :=
  [("Access-Control-Allow-Origin", cfg.allowedOrigin),
   ("Access-Control-Allow-Methods", "POST, OPTIONS"),
   ("Access-Control-Allow-Headers", "Content-Type, Authorization")]

/-- The validation stage of `handleRequest` (lines 19 to 57 of `index.js`):
origin check, preflight handling, method check, JSON parse, destructuring
(which throws on a null body), prompt presence, prompt length, in that
textual order, each failing check returning immediately. -/
def gate (cfg : Config) (request : HRequest) : GateResult :=
  if request.origin ≠ some cfg.allowedOrigin then
    .respond ⟨403, some "Forbidden", []⟩
  else if request.method = "OPTIONS" then
    .respond ⟨200, none, preflightHeaders cfg⟩
  else if request.method ≠ "POST" then
    .respond ⟨405, some "Method Not Allowed", []⟩
  else
    match request.body with
    | .error _ => .respond ⟨400, some "Bad Request: Invalid JSON", []⟩
    | .ok body =>
      match destructurePrompt body with
      | .error _ => .throw
      | .ok none => .respond ⟨400, some "Bad Request: Missing prompt", []⟩
      | .ok (some prompt) =>
        if truthy prompt = false then
          .respond ⟨400, some "Bad Request: Missing prompt", []⟩
        else
          match lengthProp prompt with
          | some lv =>
            if jsGreater (jsToNumber lv) (cfg.maxPromptLength : Int) then
              .respond ⟨400, some ("Bad Request: Max prompt length exceeded ("
                ++ jsToString lv ++ ">" ++ toString cfg.maxPromptLength), []⟩
            else .forward prompt
          | none => .forward prompt

/-- Total length in bytes of the UTF-8 sequence introduced by lead byte
`b`, `none` for a continuation or invalid lead byte. -/
def utf8SeqLen (b : Nat) : Option Nat :=
  if b < 0x80 then some 1
  else if b < 0xC0 then none
  else if b < 0xE0 then some 2
  else if b < 0xF0 then some 3
  else if b < 0xF8 then some 4
  else none

/-- Whether `b` is a UTF-8 continuation byte. -/
def isCont (b : Nat) : Bool :=
  0x80 ≤ b && b < 0xC0

/-- Assemble the code point of a multi-byte sequence from its lead byte `b`
and continuation bytes `cont`. -/
def utf8Assemble (b : Nat) (cont : List Nat) : Nat :=
  cont.foldl (fun acc c => acc * 64 + c % 64) (b % 2 ^ (6 - cont.length))

/-- Decoding of one byte arriving while no sequence is pending: an ASCII
byte is a character of its own, a lead byte opens a pending sequence, and
anything else is ill-formed and becomes U+FFFD. -/
def decodeGround (b : Nat) : List Char × List Nat :=
  match utf8SeqLen b with
  | none => ([Char.ofNat 0xFFFD], [])
  | some 1 => ([Char.ofNat b], [])
  | some _ => ([], [b])

/-- One byte of stateful UTF-8 decoding in the style of an incremental
TextDecoder: `pending` holds the bytes of a not-yet-complete sequence, lead
byte first. Well-formed sequences decode exactly; ill-formed corners are
simplified (they become replacement characters, possibly fewer than WHATWG
emits, and overlong or surrogate encodings are not re-validated), which no
property stated below depends on. -/
def decodeByte (pending : List Nat) (b : Nat) : List Char × List Nat :=
  match pending with
  | [] => decodeGround b
  | lead :: conts =>
    if isCont b then
      if conts.length + 2 = (utf8SeqLen lead).getD 0 then
        ([Char.ofNat (utf8Assemble lead (conts ++ [b]))], [])
      else
        ([], lead :: (conts ++ [b]))
    else
      let r := decodeGround b
      (Char.ofNat 0xFFFD :: r.1, r.2)

/-- Stateful decode of one byte chunk, threading the pending buffer across
chunks: this models `textDecoder.decode(value, stream true)` with the one
decoder instance that the loop creates before its first iteration. -/
def decodeBytes (pending : List Nat) : List Nat → List Char × List Nat
  | [] => ([], pending)
  | b :: rest =>
    let r := decodeByte pending b
    let r2 := decodeBytes r.2 rest
    (r.1 ++ r2.1, r2.2)

/-- UTF-8 encoding of one scalar value, as `TextEncoder` performs it. -/
def utf8EncodeChar (c : Char) : List Nat :=
  let n := c.toNat
  if n < 0x80 then [n]
  else if n < 0x800 then [0xC0 + n / 64, 0x80 + n % 64]
  else if n < 0x10000 then [0xE0 + n / 4096, 0x80 + n / 64 % 64, 0x80 + n % 64]
  else [0xF0 + n / 262144, 0x80 + n / 4096 % 64, 0x80 + n / 64 % 64, 0x80 + n % 64]

/-- UTF-8 encoding of a decoded text. -/
def utf8Encode (cs : List Char) : List Nat :=
  (cs.map utf8EncodeChar).flatten

/-- The JS `substring(0, k)` of a decoded text, measured in UTF-16 code
units, composed with the re-encoding behaviour of `TextEncoder`: cutting an
astral character in half leaves a lone surrogate, which the encoder emits
as U+FFFD. -/
def jsSubstringTake : Nat → List Char → List Char
  | _, [] => []
  | 0, _ => []
  | k + 1, c :: cs =>
    if utf16Width c ≤ k + 1 then c :: jsSubstringTake (k + 1 - utf16Width c) cs
    else [Char.ofNat 0xFFFD]

/-- One result of `reader.read()` on the upstream body: a byte chunk, or a
read that throws. The stream reports done when the event list is
exhausted. -/
inductive ReadEvent where
  | chunk (bytes : List Nat)
  | fail
  deriving DecidableEq

/-- How the downstream `ReadableStream` terminates: `controller.close()` or
`controller.error(e)`. -/
inductive StreamEnd where
  | closed
  | errored
  deriving DecidableEq

/-- Observable outcome of a run of the `push` loop: the bytes enqueued
downstream in order, the terminal state of the downstream stream, the
number of chunks obtained from `reader.read()`, the successive values of
`totalLength` recorded after each chunk is handled, its final value, and
the decoder's pending buffer when the loop stops. -/
structure RelayResult where
  output : List Nat
  ending : StreamEnd
  chunkReads : Nat
  totals : List Nat
  finalTotal : Nat
  finalPending : List Nat
  deriving DecidableEq

/-- The recursive `push` loop of `index.js` (lines 90 to 114): read a
chunk; on done, close; otherwise decode it statefully, and either truncate
to the remaining budget and close when the running total would pass the
cap, or account the full decoded length, forward the original bytes, and
recurse; a read that throws errors the downstream stream. -/
def push (cap : Nat) (events : List ReadEvent) (totalLength : Nat)
    (pending : List Nat) : RelayResult :=
  match events with
  | [] => ⟨[], .closed, 0, [], totalLength, pending⟩
  | .fail :: _ => ⟨[], .errored, 0, [], totalLength, pending⟩
  | .chunk value :: rest =>
    let d := decodeBytes pending value
    let chunkText := d.1
    if totalLength + jsLength chunkText > cap then
      ⟨utf8Encode (jsSubstringTake (cap - totalLength) chunkText), .closed, 1,
        [totalLength], totalLength, d.2⟩
    else
      let r := push cap rest (totalLength + jsLength chunkText) d.2
      ⟨value ++ r.output, r.ending, 1 + r.chunkReads,
        (totalLength + jsLength chunkText) :: r.totals, r.finalTotal, r.finalPending⟩

/-- Outcome of `await fetch(OPENAI_API_URL, ...)`: the promise rejects
(network-level failure), or it resolves with an ok flag and a streamed
body. -/
inductive FetchOutcome where
  | networkError
  | response (ok : Bool) (events : List ReadEvent)
  deriving DecidableEq

/-- What one run of `handleRequest` does: the response the handler returns
(`none` when it throws, which happens exactly when the un-caught fetch
rejection propagates), whether the upstream fetch was issued, the prompt
value the fetch carried, and the run of the `push` loop when the relay
stream was constructed. -/
structure HandleResult where
  response : Option HResponse
  fetched : Bool
  sentPrompt : Option JsonValue
  relay : Option RelayResult

/-- Shallow embedding of `handleRequest`. After the gate, the upstream
call is issued; a rejected fetch propagates out of the handler (`response
= none`); a non-ok upstream status returns a 500. Otherwise the relay
stream is constructed and its `start` runs the `push` loop eagerly; the
response the code then builds carries NO body, because it destructures a
`readable` property from the `new ReadableStream(...)` value, a property a
`ReadableStream` does not have, so `new Response(undefined, ...)` is
returned while the loop drains into the orphaned stream. -/
def handleRequest (cfg : Config) (request : HRequest)
    (fetchResult : FetchOutcome) : HandleResult :=
  match gate cfg request with
  | .respond r => ⟨some r, false, none, none⟩
  | .throw => ⟨none, false, none, none⟩
  | .forward prompt =>
    match fetchResult with
    | .networkError => ⟨none, true, some prompt, none⟩
    | .response ok events =>
      if ok then
        ⟨some ⟨200, none, [("Content-Type", "application/json"),
            ("Access-Control-Allow-Origin", cfg.allowedOrigin)]⟩,
          true, some prompt, some (push cfg.maxResponseLength events 0 [])⟩
      else
        ⟨some ⟨500, some "Error from OpenAI API", []⟩, true, some prompt, none⟩

/-- The fetch-event wiring at the bottom of `index.js`, composed with the
platform behaviour that is not itself part of the source. Modelled from
the spec: an un-caught exception from the handler is surfaced to the
client as a server-error status, per the contract that a network-level
upstream failure must yield a 500-class response. -/
def respondWith (h : HandleResult) : HResponse :=
  match h.response with
  | some r => r
  | none => ⟨500, none, []⟩

/-- Stages at which the Gate can stop a request, in the contract order the
specification states. -/
inductive GateStage where
  | badOrigin
  | preflight
  | badMethod
  | badJson
  | missingPrompt
  | promptTooLong (shown : String)

/-- The response the Gate emits when it stops at a given stage. -/
def stageResponse (cfg : Config) : GateStage → HResponse
  | .badOrigin => ⟨403, some "Forbidden", []⟩
  | .preflight => ⟨200, none, preflightHeaders cfg⟩
  | .badMethod => ⟨405, some "Method Not Allowed", []⟩
  | .badJson => ⟨400, some "Bad Request: Invalid JSON", []⟩
  | .missingPrompt => ⟨400, some "Bad Request: Missing prompt", []⟩
  | .promptTooLong shown => ⟨400, some ("Bad Request: Max prompt length exceeded ("
      ++ shown ++ ">" ++ toString cfg.maxPromptLength), []⟩

/-- Modelled from the spec's contract: the first check, in the order
origin, preflight, method, JSON parse, prompt presence, prompt length, at
which the Gate stops processing; `none` when every check passes. -/
def specFirstGateStop (cfg : Config) (request : HRequest) : Option GateStage :=
  if request.origin ≠ some cfg.allowedOrigin then some .badOrigin
  else if request.method = "OPTIONS" then some .preflight
  else if request.method ≠ "POST" then some .badMethod
  else
    match request.body with
    | .error _ => some .badJson
    | .ok body =>
      match getProp body "prompt" with
      | none => some .missingPrompt
      | some prompt =>
        if truthy prompt = false then some .missingPrompt
        else
          match lengthProp prompt with
          | some lv =>
            if jsGreater (jsToNumber lv) (cfg.maxPromptLength : Int) then
              some (.promptTooLong (jsToString lv))
            else none
          | none => none

/-- Sum of the decoded lengths of a sequence of chunks, decoding
statefully from the given pending buffer, exactly as the loop accounts
them. -/
def sumLens (pending : List Nat) : List (List Nat) → Nat
  | [] => 0
  | c :: rest =>
    let r := decodeBytes pending c
    jsLength r.1 + sumLens r.2 rest

/-- The decoder's pending buffer after statefully decoding a sequence of
chunks. -/
def pendingAfter (pending : List Nat) : List (List Nat) → List Nat
  | [] => pending
  | c :: rest => pendingAfter (decodeBytes pending c).2 rest

/-- A well-formed request from the allowed origin carrying the prompt
"hello", used by the concrete scenarios. -/
def validReq : HRequest :=
  ⟨some ALLOWED_ORIGIN, "POST", .ok (.obj [("prompt", .str "hello")])⟩

/-- When the gate stops with a response, the handler returns exactly that
response, no fetch is issued and no relay stream is constructed. -/
theorem handleRequest_respond (cfg : Config) (request : HRequest)
    (fo : FetchOutcome) (r : HResponse) (h : gate cfg request = .respond r) :
    handleRequest cfg request fo = ⟨some r, false, none, none⟩ := by
  unfold handleRequest
  rw [h]

/-- When a value has a prompt property, the destructuring does not throw
and yields exactly that property. -/
theorem destructurePrompt_eq (body v : JsonValue)
    (h : getProp body "prompt" = some v) :
    destructurePrompt body = Except.ok (some v) := by
  cases body <;> first
    | exact congrArg Except.ok h
    | simp [getProp] at h

/-- The gate of the source agrees with the spec-side first-failing-check
function: whenever the latter stops at a stage, the gate either emits that
stage's response, or — only for a top-level JSON null body, at the
prompt-presence stage — throws out of the handler instead. -/
theorem gate_stop (cfg : Config) (request : HRequest) (st : GateStage)
    (h : specFirstGateStop cfg request = some st) :
    gate cfg request = GateResult.respond (stageResponse cfg st) ∨
      (request.body = Except.ok JsonValue.null ∧
        gate cfg request = GateResult.throw ∧ st = GateStage.missingPrompt) := by
  obtain ⟨ro, rm, rb⟩ := request
  unfold specFirstGateStop at h
  unfold gate
  dsimp only at h ⊢
  by_cases h1 : ro ≠ some cfg.allowedOrigin
  · rw [if_pos h1] at h ⊢
    injection h with h; subst h; exact Or.inl rfl
  · rw [if_neg h1] at h ⊢
    by_cases h2 : rm = "OPTIONS"
    · rw [if_pos h2] at h ⊢
      injection h with h; subst h; exact Or.inl rfl
    · rw [if_neg h2] at h ⊢
      by_cases h3 : rm ≠ "POST"
      · rw [if_pos h3] at h ⊢
        injection h with h; subst h; exact Or.inl rfl
      · rw [if_neg h3] at h ⊢
        cases rb with
        | error e =>
          injection h with h; subst h; exact Or.inl rfl
        | ok body =>
          dsimp only at h ⊢
          by_cases hnull : body = JsonValue.null
          · subst hnull
            simp only [getProp] at h
            injection h with h; subst h
            exact Or.inr ⟨rfl, rfl, rfl⟩
          · have hd : destructurePrompt body
                = Except.ok (getProp body "prompt") := by
              cases body <;> first
                | rfl
                | exact absurd rfl hnull
            rw [hd]
            cases hg : getProp body "prompt" with
            | none =>
              simp only [hg] at h ⊢
              injection h with h; subst h; exact Or.inl rfl
            | some prompt =>
              simp only [hg] at h ⊢
              by_cases h4 : truthy prompt = false
              · rw [if_pos h4] at h ⊢
                injection h with h; subst h; exact Or.inl rfl
              · rw [if_neg h4] at h ⊢
                cases hp : lengthProp prompt with
                | none =>
                  simp only [hp] at h
                  simp at h
                | some lv =>
                  simp only [hp] at h ⊢
                  by_cases h5 : jsGreater (jsToNumber lv)
                      (cfg.maxPromptLength : Int) = true
                  · rw [if_pos h5] at h ⊢
                    injection h with h; subst h; exact Or.inl rfl
                  · rw [if_neg h5] at h
                    simp at h

/-- The gate on an allowed-origin POST with parsed body and a truthy
prompt value reduces to the length check. -/
theorem gate_post (cfg : Config) (body v : JsonValue)
    (h4 : getProp body "prompt" = some v) (ht : truthy v = true) :
    gate cfg ⟨some cfg.allowedOrigin, "POST", Except.ok body⟩ =
      (match lengthProp v with
       | some lv =>
         if jsGreater (jsToNumber lv) (cfg.maxPromptLength : Int) then
           GateResult.respond ⟨400, some ("Bad Request: Max prompt length exceeded ("
             ++ jsToString lv ++ ">" ++ toString cfg.maxPromptLength), []⟩
         else GateResult.forward v
       | none => GateResult.forward v) := by
  unfold gate
  dsimp only
  rw [if_neg (by simp), if_neg (by decide), if_neg (by simp)]
  rw [destructurePrompt_eq body v h4]
  dsimp only
  rw [if_neg (by simp [ht])]

/-- The coerced comparison against an undecorated integer is the plain
integer comparison. -/
theorem jsGreater_fin_int (n bound : Int) :
    jsGreater (JsNum.fin n 0) bound = decide (bound < n) := by
  unfold jsGreater
  norm_num

/-- Stringifying a JSON number is printing its integer. -/
theorem jsToString_num (n : Int) : jsToString (JsonValue.num n) = toString n := by
  simp [jsToString]

/-- C6 as amended (frame and short-circuit): for every inbound request at
which the contract's ordered checks (origin, preflight, method, JSON
parse, prompt presence, prompt length) first stop, no upstream request is
issued and no relay stream is constructed, whatever upstream would have
answered; unless the gate throws, the handler's result is exactly that
check's response. The single throwing case is a top-level JSON null body:
there the destructuring throws before the presence check can answer, the
handler returns no response of its own, and the client receives the
runtime's 500-class exception response instead of the gate's 400. -/
theorem gate_short_circuit_no_fetch (cfg : Config) (request : HRequest)
    (st : GateStage) (fo : FetchOutcome)
    (h : specFirstGateStop cfg request = some st) :
    (handleRequest cfg request fo).fetched = false ∧
    (handleRequest cfg request fo).relay = none ∧
    (gate cfg request ≠ GateResult.throw →
        handleRequest cfg request fo
          = ⟨some (stageResponse cfg st), false, none, none⟩) ∧
    (gate cfg request = GateResult.throw →
        request.body = Except.ok JsonValue.null ∧
        st = GateStage.missingPrompt ∧
        handleRequest cfg request fo = ⟨none, false, none, none⟩ ∧
        respondWith (handleRequest cfg request fo) = ⟨500, none, []⟩) := by
  rcases gate_stop cfg request st h with hg | ⟨hb, hg, hst⟩
  · have hr := handleRequest_respond cfg request fo _ hg
    refine ⟨by rw [hr], by rw [hr], fun _ => hr, fun hthrow => ?_⟩
    rw [hg] at hthrow
    exact GateResult.noConfusion hthrow
  · have hr : handleRequest cfg request fo = ⟨none, false, none, none⟩ := by
      unfold handleRequest
      rw [hg]
    exact ⟨by rw [hr], by rw [hr], fun hnt => absurd hg hnt,
      fun _ => ⟨hb, hst, hr, by rw [hr]; rfl⟩⟩

/-- Witness for C6 as amended: an invalid-JSON body from the allowed
origin stops at the JSON-parse check (the gate does not throw there) with
the 400 response, and no fetch happens. -/
theorem gate_short_circuit_no_fetch_witness :
    specFirstGateStop {} ⟨some ALLOWED_ORIGIN, "POST", Except.error ()⟩
        = some GateStage.badJson ∧
    ((handleRequest {} ⟨some ALLOWED_ORIGIN, "POST", Except.error ()⟩
          FetchOutcome.networkError).fetched = false ∧
      (handleRequest {} ⟨some ALLOWED_ORIGIN, "POST", Except.error ()⟩
          FetchOutcome.networkError).relay = none ∧
      (gate {} ⟨some ALLOWED_ORIGIN, "POST", Except.error ()⟩
            ≠ GateResult.throw →
          handleRequest {} ⟨some ALLOWED_ORIGIN, "POST", Except.error ()⟩
              FetchOutcome.networkError
            = ⟨some (stageResponse {} GateStage.badJson), false, none, none⟩) ∧
      (gate {} ⟨some ALLOWED_ORIGIN, "POST", Except.error ()⟩
            = GateResult.throw →
          (⟨some ALLOWED_ORIGIN, "POST", Except.error ()⟩ : HRequest).body
              = Except.ok JsonValue.null ∧
          GateStage.badJson = GateStage.missingPrompt ∧
          handleRequest {} ⟨some ALLOWED_ORIGIN, "POST", Except.error ()⟩
              FetchOutcome.networkError = ⟨none, false, none, none⟩ ∧
          respondWith (handleRequest {} ⟨some ALLOWED_ORIGIN, "POST",
              Except.error ()⟩ FetchOutcome.networkError)
            = ⟨500, none, []⟩)) :=
  ⟨rfl, gate_short_circuit_no_fetch {} _ _ _ rfl⟩

/-- Counterexample to C6 as stated: a POST from the allowed origin whose
body is the valid JSON text "null". Per the contract order the first
failing check is prompt presence, whose response would be the 400
Missing-prompt — but the program's `let (prompt) = body` throws a
TypeError on the null body before that check, so the gate emits NO
response and the client receives the runtime's 500-class exception
response instead; the short-circuit-with-own-response clause fails. -/
theorem null_body_throws :
    specFirstGateStop {} ⟨some ALLOWED_ORIGIN, "POST", Except.ok JsonValue.null⟩
        = some GateStage.missingPrompt ∧
    gate {} ⟨some ALLOWED_ORIGIN, "POST", Except.ok JsonValue.null⟩
        = GateResult.throw ∧
    handleRequest {} ⟨some ALLOWED_ORIGIN, "POST", Except.ok JsonValue.null⟩
        FetchOutcome.networkError = ⟨none, false, none, none⟩ ∧
    respondWith (handleRequest {} ⟨some ALLOWED_ORIGIN, "POST",
        Except.ok JsonValue.null⟩ FetchOutcome.networkError)
      = ⟨500, none, []⟩ :=
  ⟨rfl, rfl, rfl, rfl⟩

/-- C3: every request whose Origin header is absent or differs from the
allowed origin gets the bare 403 Forbidden response, with no fetch and no
relay, regardless of its method (preflight included) and body. -/
theorem origin_mismatch_403 (cfg : Config) (request : HRequest)
    (fo : FetchOutcome) (h : request.origin ≠ some cfg.allowedOrigin) :
    handleRequest cfg request fo
      = ⟨some ⟨403, some "Forbidden", []⟩, false, none, none⟩ := by
  apply handleRequest_respond
  unfold gate
  rw [if_pos h]

/-- Witness for C3: an OPTIONS request with no Origin header is rejected
with 403 before any preflight handling. -/
theorem origin_mismatch_403_witness :
    (⟨none, "OPTIONS", Except.error ()⟩ : HRequest).origin
        ≠ some ({} : Config).allowedOrigin ∧
    handleRequest {} ⟨none, "OPTIONS", Except.error ()⟩ FetchOutcome.networkError
      = ⟨some ⟨403, some "Forbidden", []⟩, false, none, none⟩ :=
  ⟨by simp, origin_mismatch_403 {} _ _ (by simp)⟩

/-- C4: every string prompt longer (in UTF-16 units, the JS length) than
the configured maximum is answered with status 400 and the exact message
of the source, which interpolates both the actual and the configured
length and lacks a closing parenthesis; no fetch is issued. -/
theorem prompt_too_long_400 (cfg : Config) (request : HRequest)
    (body : JsonValue) (s : String) (fo : FetchOutcome)
    (h1 : request.origin = some cfg.allowedOrigin)
    (h2 : request.method = "POST")
    (h3 : request.body = Except.ok body)
    (h4 : getProp body "prompt" = some (JsonValue.str s))
    (h5 : cfg.maxPromptLength < jsStrLength s) :
    handleRequest cfg request fo
      = ⟨some ⟨400, some ("Bad Request: Max prompt length exceeded ("
          ++ toString (jsStrLength s : Int) ++ ">" ++ toString cfg.maxPromptLength),
          []⟩, false, none, none⟩ := by
  obtain ⟨ro, rm, rb⟩ := request
  dsimp only at h1 h2 h3
  subst h1; subst h2; subst h3
  apply handleRequest_respond
  have hne : truthy (JsonValue.str s) = true := by
    unfold truthy
    simp only [bne_iff_ne, ne_eq]
    intro he
    subst he
    simp [jsStrLength, jsLength] at h5
  rw [gate_post cfg body (JsonValue.str s) h4 hne]
  simp only [lengthProp, jsToNumber]
  have hgt : jsGreater (JsNum.fin (jsStrLength s : Int) 0)
      (cfg.maxPromptLength : Int) = true := by
    rw [jsGreater_fin_int, decide_eq_true_eq]
    exact_mod_cast h5
  rw [if_pos hgt]
  rw [jsToString_num]

/-- Witness for C4, the concrete scenario B: with maximum prompt length 10
the 12-character prompt "hello world!" yields the exact 400 body with no
closing parenthesis. -/
theorem prompt_too_long_400_witness :
    ({ maxPromptLength := 10 } : Config).maxPromptLength
        < jsStrLength "hello world!" ∧
    handleRequest { maxPromptLength := 10 }
        ⟨some ALLOWED_ORIGIN, "POST",
          Except.ok (JsonValue.obj [("prompt", JsonValue.str "hello world!")])⟩
        FetchOutcome.networkError
      = ⟨some ⟨400, some "Bad Request: Max prompt length exceeded (12>10", []⟩,
          false, none, none⟩ :=
  ⟨by decide, by
    exact prompt_too_long_400 { maxPromptLength := 10 }
      ⟨some ALLOWED_ORIGIN, "POST",
        Except.ok (JsonValue.obj [("prompt", JsonValue.str "hello world!")])⟩
      (JsonValue.obj [("prompt", JsonValue.str "hello world!")])
      "hello world!" FetchOutcome.networkError rfl rfl rfl rfl (by decide)⟩

/-- C5: whenever the gate forwards and the upstream call either rejects at
the network level or resolves with a non-ok status, the client receives a
500-status response and no relay stream is ever constructed. -/
theorem upstream_failure_500 (cfg : Config) (request : HRequest)
    (p : JsonValue) (fo : FetchOutcome)
    (hg : gate cfg request = GateResult.forward p)
    (hf : fo = FetchOutcome.networkError
        ∨ ∃ evs, fo = FetchOutcome.response false evs) :
    (respondWith (handleRequest cfg request fo)).status = 500 ∧
      (handleRequest cfg request fo).relay = none := by
  rcases hf with rfl | ⟨evs, rfl⟩ <;> simp [handleRequest, hg, respondWith]

/-- Witness for C5: a valid request whose fetch rejects produces a
500-status reply and no relay. -/
theorem upstream_failure_500_witness :
    gate {} validReq = GateResult.forward (JsonValue.str "hello") ∧
    ((respondWith (handleRequest {} validReq FetchOutcome.networkError)).status
          = 500 ∧
      (handleRequest {} validReq FetchOutcome.networkError).relay = none) :=
  ⟨rfl, upstream_failure_500 {} validReq (JsonValue.str "hello")
    FetchOutcome.networkError rfl (Or.inl rfl)⟩

/-- C10 as amended: a truthy non-string prompt value passes the presence
check, and the length check applies JS semantics to `prompt.length` — the
property is undefined for numbers, booleans and objects without a length
field (the value is then forwarded upstream even though it is not a
non-empty string), and otherwise its ToNumber coercion is compared with
the maximum, forwarding on false and rejecting with the 400 length message
(which prints the raw property value) on true; only falsy prompts are
rejected with the 400 Missing-prompt response. -/
theorem nonstring_prompt_gate (cfg : Config) (request : HRequest)
    (body v : JsonValue) (fo : FetchOutcome)
    (h1 : request.origin = some cfg.allowedOrigin)
    (h2 : request.method = "POST")
    (h3 : request.body = Except.ok body)
    (h4 : getProp body "prompt" = some v) :
    (truthy v = true → lengthProp v = none →
        (handleRequest cfg request fo).fetched = true ∧
        (handleRequest cfg request fo).sentPrompt = some v) ∧
    (∀ lv, truthy v = true → lengthProp v = some lv →
        jsGreater (jsToNumber lv) (cfg.maxPromptLength : Int) = false →
        (handleRequest cfg request fo).fetched = true ∧
        (handleRequest cfg request fo).sentPrompt = some v) ∧
    (∀ lv, truthy v = true → lengthProp v = some lv →
        jsGreater (jsToNumber lv) (cfg.maxPromptLength : Int) = true →
        handleRequest cfg request fo
          = ⟨some ⟨400, some ("Bad Request: Max prompt length exceeded ("
              ++ jsToString lv ++ ">" ++ toString cfg.maxPromptLength), []⟩,
              false, none, none⟩) ∧
    (truthy v = false →
        handleRequest cfg request fo
          = ⟨some ⟨400, some "Bad Request: Missing prompt", []⟩,
              false, none, none⟩) := by
  obtain ⟨ro, rm, rb⟩ := request
  dsimp only at h1 h2 h3
  subst h1; subst h2; subst h3
  refine ⟨?_, ?_, ?_, ?_⟩
  · intro ht hl
    have hg : gate cfg ⟨some cfg.allowedOrigin, "POST", Except.ok body⟩
        = GateResult.forward v := by
      rw [gate_post cfg body v h4 ht, hl]
    cases fo with
    | networkError => simp [handleRequest, hg]
    | response ok evs => cases ok <;> simp [handleRequest, hg]
  · intro lv ht hl hle
    have hg : gate cfg ⟨some cfg.allowedOrigin, "POST", Except.ok body⟩
        = GateResult.forward v := by
      rw [gate_post cfg body v h4 ht, hl]
      dsimp only
      rw [if_neg (by simp [hle])]
    cases fo with
    | networkError => simp [handleRequest, hg]
    | response ok evs => cases ok <;> simp [handleRequest, hg]
  · intro lv ht hl hgt
    apply handleRequest_respond
    rw [gate_post cfg body v h4 ht, hl]
    dsimp only
    rw [if_pos hgt]
  · intro ht
    apply handleRequest_respond
    unfold gate
    dsimp only
    rw [if_neg (by simp), if_neg (by decide), if_neg (by simp)]
    rw [destructurePrompt_eq body v h4]
    dsimp only
    rw [if_pos ht]

/-- Witness for C10 as amended: the number 5 as prompt is truthy, has no
JS length, passes both checks and is sent upstream. -/
theorem nonstring_prompt_gate_witness :
    truthy (JsonValue.num 5) = true ∧ lengthProp (JsonValue.num 5) = none ∧
    ((handleRequest {} ⟨some ALLOWED_ORIGIN, "POST",
          Except.ok (JsonValue.obj [("prompt", JsonValue.num 5)])⟩
        FetchOutcome.networkError).fetched = true ∧
      (handleRequest {} ⟨some ALLOWED_ORIGIN, "POST",
          Except.ok (JsonValue.obj [("prompt", JsonValue.num 5)])⟩
        FetchOutcome.networkError).sentPrompt = some (JsonValue.num 5)) :=
  ⟨rfl, rfl,
    (nonstring_prompt_gate {}
      ⟨some ALLOWED_ORIGIN, "POST",
        Except.ok (JsonValue.obj [("prompt", JsonValue.num 5)])⟩
      (JsonValue.obj [("prompt", JsonValue.num 5)]) (JsonValue.num 5)
      FetchOutcome.networkError rfl rfl rfl rfl).1 rfl rfl⟩

set_option maxRecDepth 100000 in
/-- Counterexample to C10 as stated: an array of 1001 nulls is a truthy
non-string prompt, yet the length check does NOT pass — JS reads its
numeric length property, 1001, which exceeds the default maximum of 1000,
so the request is rejected with the 400 length message and nothing is
forwarded upstream. -/
theorem long_array_prompt_rejected :
    truthy (JsonValue.arr (List.replicate 1001 JsonValue.null)) = true ∧
    handleRequest {} ⟨some ALLOWED_ORIGIN, "POST",
        Except.ok (JsonValue.obj
          [("prompt", JsonValue.arr (List.replicate 1001 JsonValue.null))])⟩
        FetchOutcome.networkError
      = ⟨some ⟨400, some "Bad Request: Max prompt length exceeded (1001>1000", []⟩,
          false, none, none⟩ := by
  refine ⟨rfl, ?_⟩
  have hm : ("Bad Request: Max prompt length exceeded ("
        ++ jsToString (JsonValue.num 1001) ++ ">" ++ toString (1000 : Nat))
      = "Bad Request: Max prompt length exceeded (1001>1000" := by
    rw [jsToString_num]
    decide
  calc handleRequest {} ⟨some ALLOWED_ORIGIN, "POST",
        Except.ok (JsonValue.obj
          [("prompt", JsonValue.arr (List.replicate 1001 JsonValue.null))])⟩
        FetchOutcome.networkError
      = ⟨some ⟨400, some ("Bad Request: Max prompt length exceeded ("
            ++ jsToString (JsonValue.num 1001) ++ ">" ++ toString (1000 : Nat)),
            []⟩, false, none, none⟩ := rfl
    _ = ⟨some ⟨400, some "Bad Request: Max prompt length exceeded (1001>1000",
            []⟩, false, none, none⟩ := by rw [hm]

/-- The counter invariant of the push loop, generalised over the starting
total and decoder state: the recorded totals never decrease and never pass
the cap, and neither does the final total. -/
theorem push_totals_aux (cap : Nat) (events : List ReadEvent) :
    ∀ (total : Nat) (pend : List Nat), total ≤ cap →
      List.Chain (· ≤ ·) total (push cap events total pend).totals ∧
      (∀ t ∈ (push cap events total pend).totals, t ≤ cap) ∧
      (push cap events total pend).finalTotal ≤ cap := by
  induction events with
  | nil =>
    intro total pend h
    exact ⟨List.Chain.nil, by intro t ht; simp [push] at ht, h⟩
  | cons e rest ih =>
    intro total pend h
    cases e with
    | fail =>
      exact ⟨List.Chain.nil, by intro t ht; simp [push] at ht, h⟩
    | chunk value =>
      by_cases hc : total + jsLength (decodeBytes pend value).1 > cap
      · simp only [push]
        rw [if_pos hc]
        dsimp only
        refine ⟨List.Chain.cons (le_refl total) List.Chain.nil, ?_, h⟩
        intro t ht
        simp at ht
        omega
      · simp only [push]
        rw [if_neg hc]
        dsimp only
        obtain ⟨ih1, ih2, ih3⟩ :=
          ih (total + jsLength (decodeBytes pend value).1)
            (decodeBytes pend value).2 (by omega)
        refine ⟨List.Chain.cons (by omega) ih1, ?_, ih3⟩
        intro t ht
        rcases List.mem_cons.mp ht with rfl | ht
        · omega
        · exact ih2 t ht

/-- C9: over every relay session the totalLength counter is monotonically
non-decreasing chunk by chunk, every recorded value stays at or below the
configured cap, and so does the final value; each chunk is accounted in
one step (the counter either gains the chunk's whole decoded length or,
at a truncated final chunk, is left untouched), which the sequential loop
performs atomically with its check. -/
theorem totalLength_monotone_bounded (cap : Nat) (events : List ReadEvent) :
    List.Chain (· ≤ ·) 0 (push cap events 0 []).totals ∧
    (∀ t ∈ (push cap events 0 []).totals, t ≤ cap) ∧
    (push cap events 0 []).finalTotal ≤ cap :=
  push_totals_aux cap events 0 [] (Nat.zero_le cap)

/-- Witness for C9: in the concrete cap-10 scenario the second recorded
total, 10, is bounded by the cap. -/
theorem totalLength_monotone_bounded_witness :
    10 ∈ (push 10 [ReadEvent.chunk (utf8Encode "abcde".data),
        ReadEvent.chunk (utf8Encode "fghij".data),
        ReadEvent.chunk (utf8Encode "klmno".data)] 0 []).totals ∧ 10 ≤ 10 :=
  ⟨by decide,
    (totalLength_monotone_bounded 10 [ReadEvent.chunk (utf8Encode "abcde".data),
        ReadEvent.chunk (utf8Encode "fghij".data),
        ReadEvent.chunk (utf8Encode "klmno".data)]).2.1 10 (by decide)⟩

/-- The cap-boundary behaviour of the push loop, generalised over the
starting total and decoder state: when the running total first passes the
cap within chunk C, the loop forwards every earlier chunk verbatim,
re-encodes the truncated decoded text of C, closes, and reads nothing
after C. -/
theorem push_cap_aux (cap : Nat) (C : List Nat) (rest : List ReadEvent) :
    ∀ (pres : List (List Nat)) (total : Nat) (pend : List Nat),
      total + sumLens pend pres ≤ cap →
      cap < total + sumLens pend pres
          + jsLength (decodeBytes (pendingAfter pend pres) C).1 →
      (push cap (pres.map ReadEvent.chunk ++ ReadEvent.chunk C :: rest)
          total pend).output
        = pres.flatten ++ utf8Encode (jsSubstringTake
            (cap - (total + sumLens pend pres))
            (decodeBytes (pendingAfter pend pres) C).1) ∧
      (push cap (pres.map ReadEvent.chunk ++ ReadEvent.chunk C :: rest)
          total pend).ending = StreamEnd.closed ∧
      (push cap (pres.map ReadEvent.chunk ++ ReadEvent.chunk C :: rest)
          total pend).chunkReads = pres.length + 1 := by
  intro pres
  induction pres with
  | nil =>
    intro total pend h1 h2
    simp only [sumLens, pendingAfter] at h1 h2 ⊢
    simp only [List.map_nil, List.nil_append, push]
    rw [if_pos (by omega)]
    simp
  | cons p ps ih =>
    intro total pend h1 h2
    simp only [sumLens, pendingAfter] at h1 h2 ⊢
    simp only [List.map_cons, List.cons_append, push]
    rw [if_neg (by omega)]
    dsimp only
    simp only [List.append_eq]
    obtain ⟨o1, o2, o3⟩ :=
      ih (total + jsLength (decodeBytes pend p).1) (decodeBytes pend p).2
        (by omega) (by omega)
    refine ⟨?_, o2, ?_⟩
    · rw [o1]
      have harith : total + jsLength (decodeBytes pend p).1
            + sumLens (decodeBytes pend p).2 ps
          = total + (jsLength (decodeBytes pend p).1
            + sumLens (decodeBytes pend p).2 ps) := by omega
      rw [harith]
      simp [List.append_assoc]
    · rw [o3]
      simp [List.length_cons]
      omega

/-- C2 as amended: when the cumulative decoded length first exceeds the
cap within chunk C, the push loop enqueues downstream exactly the
concatenation of all chunks before C plus the re-encoded first
(cap minus previous total) UTF-16 units of C's decoded text, then closes;
chunk C itself IS read, but nothing after it is. -/
theorem cap_boundary_truncation (cap : Nat) (pres : List (List Nat))
    (C : List Nat) (rest : List ReadEvent)
    (h1 : sumLens [] pres ≤ cap)
    (h2 : cap < sumLens [] pres
        + jsLength (decodeBytes (pendingAfter [] pres) C).1) :
    (push cap (pres.map ReadEvent.chunk ++ ReadEvent.chunk C :: rest) 0 []).output
        = pres.flatten ++ utf8Encode (jsSubstringTake (cap - sumLens [] pres)
            (decodeBytes (pendingAfter [] pres) C).1) ∧
    (push cap (pres.map ReadEvent.chunk ++ ReadEvent.chunk C :: rest) 0 []).ending
        = StreamEnd.closed ∧
    (push cap (pres.map ReadEvent.chunk ++ ReadEvent.chunk C :: rest) 0 []).chunkReads
        = pres.length + 1 := by
  have h := push_cap_aux cap C rest pres 0 [] (by omega) (by omega)
  simpa using h

/-- Witness for C2 as amended, the concrete scenario: cap 10, chunks
"abcde", "fghij", "klmno" — the loop enqueues exactly "abcdefghij", closes,
and has read all three chunks (the third contributing zero characters). -/
theorem cap_boundary_truncation_witness :
    sumLens [] [utf8Encode "abcde".data, utf8Encode "fghij".data] ≤ 10 ∧
    10 < sumLens [] [utf8Encode "abcde".data, utf8Encode "fghij".data]
        + jsLength (decodeBytes (pendingAfter []
            [utf8Encode "abcde".data, utf8Encode "fghij".data])
          (utf8Encode "klmno".data)).1 ∧
    ((push 10 [ReadEvent.chunk (utf8Encode "abcde".data),
          ReadEvent.chunk (utf8Encode "fghij".data),
          ReadEvent.chunk (utf8Encode "klmno".data)] 0 []).output
        = utf8Encode "abcdefghij".data ∧
      (push 10 [ReadEvent.chunk (utf8Encode "abcde".data),
          ReadEvent.chunk (utf8Encode "fghij".data),
          ReadEvent.chunk (utf8Encode "klmno".data)] 0 []).ending
        = StreamEnd.closed ∧
      (push 10 [ReadEvent.chunk (utf8Encode "abcde".data),
          ReadEvent.chunk (utf8Encode "fghij".data),
          ReadEvent.chunk (utf8Encode "klmno".data)] 0 []).chunkReads = 3) := by
  refine ⟨by decide, by decide, ?_⟩
  have h := cap_boundary_truncation 10
    [utf8Encode "abcde".data, utf8Encode "fghij".data]
    (utf8Encode "klmno".data) [] (by decide) (by decide)
  exact ⟨h.1, h.2.1, h.2.2⟩

/-- Counterexample to C2 as stated: in the concrete scenario the relay
DOES request the third chunk — the loop performs a third read, decodes it,
finds the budget exhausted, enqueues an empty truncation and only then
closes — and what the HTTP client receives is not "abcdefghij" but an
empty body, since the response is built from an undefined `readable`
property. -/
theorem third_chunk_is_read :
    (push 10 [ReadEvent.chunk (utf8Encode "abcde".data),
        ReadEvent.chunk (utf8Encode "fghij".data),
        ReadEvent.chunk (utf8Encode "klmno".data)] 0 []).chunkReads = 3 ∧
    (handleRequest { maxResponseLength := 10 } validReq
        (FetchOutcome.response true [ReadEvent.chunk (utf8Encode "abcde".data),
          ReadEvent.chunk (utf8Encode "fghij".data),
          ReadEvent.chunk (utf8Encode "klmno".data)])).response
      = some ⟨200, none, [("Content-Type", "application/json"),
          ("Access-Control-Allow-Origin", ALLOWED_ORIGIN)]⟩ :=
  ⟨rfl, rfl⟩

/-- C1 (code bug): with a valid request and an upstream stream "hi" well
under the cap, the push loop does relay the bytes verbatim and closes at
upstream end, but the response handed to the client carries NO body — the
code destructures `readable` from a `ReadableStream`, which has no such
property, so `new Response(undefined, ...)` is returned and the claimed
byte-for-byte round trip never reaches the client. -/
theorem envelope_drops_stream :
    ((handleRequest {} validReq
        (FetchOutcome.response true [ReadEvent.chunk [104, 105]])).relay.map
      RelayResult.output) = some [104, 105] ∧
    ((handleRequest {} validReq
        (FetchOutcome.response true [ReadEvent.chunk [104, 105]])).relay.map
      RelayResult.ending) = some StreamEnd.closed ∧
    (handleRequest {} validReq
        (FetchOutcome.response true [ReadEvent.chunk [104, 105]])).response
      = some ⟨200, none, [("Content-Type", "application/json"),
          ("Access-Control-Allow-Origin", ALLOWED_ORIGIN)]⟩ :=
  ⟨rfl, rfl, rfl⟩

/-- C8 (code bug): when a mid-stream read throws, the push loop does error
the downstream stream terminally and performs no further read (no retry) —
but that errored stream is not the one the client holds: the client was
handed a bodyless 200 response up front (the `readable` destructuring
slip), so it never observes the abort. -/
theorem midstream_error_terminal :
    ((handleRequest {} validReq
        (FetchOutcome.response true [ReadEvent.chunk [104, 105], ReadEvent.fail,
          ReadEvent.chunk [33]])).relay)
      = some ⟨[104, 105], StreamEnd.errored, 1, [2], 2, []⟩ ∧
    (handleRequest {} validReq
        (FetchOutcome.response true [ReadEvent.chunk [104, 105], ReadEvent.fail,
          ReadEvent.chunk [33]])).response
      = some ⟨200, none, [("Content-Type", "application/json"),
          ("Access-Control-Allow-Origin", ALLOWED_ORIGIN)]⟩ :=
  ⟨rfl, rfl⟩

/-- Stateful decoding splits along any chunk boundary: decoding a
concatenation equals decoding the first part and then the second from the
resulting pending state. -/
theorem decodeBytes_append (p a b : List Nat) :
    decodeBytes p (a ++ b)
      = ((decodeBytes p a).1 ++ (decodeBytes (decodeBytes p a).2 b).1,
         (decodeBytes (decodeBytes p a).2 b).2) := by
  induction a generalizing p with
  | nil => simp [decodeBytes]
  | cons x xs ih => simp [decodeBytes, ih, List.append_assoc]

/-- Every scalar value is below the Unicode bound. -/
theorem char_toNat_lt (c : Char) : c.toNat < 0x110000 := by
  rcases c.valid with h | ⟨_, h2⟩
  · exact Nat.lt_trans h (by norm_num)
  · exact h2

/-- The lead byte produced for a two-byte encoding announces length 2. -/
theorem seqLen_lead2 (n : Nat) (h1 : 0x80 ≤ n) (h2 : n < 0x800) :
    utf8SeqLen (0xC0 + n / 64) = some 2 := by
  unfold utf8SeqLen
  rw [if_neg (by omega), if_neg (by omega), if_pos (by omega)]

/-- The lead byte produced for a three-byte encoding announces length 3. -/
theorem seqLen_lead3 (n : Nat) (h1 : 0x800 ≤ n) (h2 : n < 0x10000) :
    utf8SeqLen (0xE0 + n / 4096) = some 3 := by
  unfold utf8SeqLen
  rw [if_neg (by omega), if_neg (by omega), if_neg (by omega), if_pos (by omega)]

/-- The lead byte produced for a four-byte encoding announces length 4. -/
theorem seqLen_lead4 (n : Nat) (h1 : 0x10000 ≤ n) (h2 : n < 0x110000) :
    utf8SeqLen (0xF0 + n / 262144) = some 4 := by
  unfold utf8SeqLen
  rw [if_neg (by omega), if_neg (by omega), if_neg (by omega), if_neg (by omega),
    if_pos (by omega)]

/-- Bytes of the form 0x80 + something mod 64 are continuation bytes. -/
theorem isCont_byte (x : Nat) : isCont (0x80 + x % 64) = true := by
  unfold isCont
  have : x % 64 < 64 := Nat.mod_lt _ (by norm_num)
  simp only [Bool.and_eq_true, decide_eq_true_eq]
  omega

/-- Decoding an encoded scalar value from the ground state yields exactly
that character and an empty pending buffer. -/
theorem decodeBytes_encodeChar (c : Char) :
    decodeBytes [] (utf8EncodeChar c) = ([c], []) := by
  have hlt := char_toNat_lt c
  unfold utf8EncodeChar
  by_cases g1 : c.toNat < 0x80
  · rw [if_pos g1]
    have e0 : utf8SeqLen c.toNat = some 1 := by
      unfold utf8SeqLen; rw [if_pos g1]
    simp [decodeBytes, decodeByte, decodeGround, e0]
  · rw [if_neg g1]
    by_cases g2 : c.toNat < 0x800
    · rw [if_pos g2]
      have e0 := seqLen_lead2 c.toNat (by omega) g2
      have ea : utf8Assemble (0xC0 + c.toNat / 64) [0x80 + c.toNat % 64]
          = c.toNat := by
        unfold utf8Assemble
        simp only [List.foldl, List.length_cons, List.length_nil]
        norm_num
        omega
      simp [decodeBytes, decodeByte, decodeGround, e0, isCont_byte, ea]
    · rw [if_neg g2]
      by_cases g3 : c.toNat < 0x10000
      · rw [if_pos g3]
        have e0 := seqLen_lead3 c.toNat (by omega) g3
        have ea : utf8Assemble (0xE0 + c.toNat / 4096)
            [0x80 + c.toNat / 64 % 64, 0x80 + c.toNat % 64] = c.toNat := by
          unfold utf8Assemble
          simp only [List.foldl, List.length_cons, List.length_nil]
          norm_num
          omega
        simp [decodeBytes, decodeByte, decodeGround, e0, isCont_byte, ea]
      · rw [if_neg g3]
        have e0 := seqLen_lead4 c.toNat (by omega) hlt
        have ea : utf8Assemble (0xF0 + c.toNat / 262144)
            [0x80 + c.toNat / 4096 % 64, 0x80 + c.toNat / 64 % 64,
              0x80 + c.toNat % 64] = c.toNat := by
          unfold utf8Assemble
          simp only [List.foldl, List.length_cons, List.length_nil]
          norm_num
          omega
        simp [decodeBytes, decodeByte, decodeGround, e0, isCont_byte, ea]

/-- Decoding a strict nonempty prefix of an encoded scalar value from the
ground state produces no character yet: the bytes are held pending. -/
theorem decodeBytes_encodeChar_take (c : Char) (k : Nat) (hk0 : 0 < k)
    (hk : k < (utf8EncodeChar c).length) :
    decodeBytes [] ((utf8EncodeChar c).take k)
      = ([], (utf8EncodeChar c).take k) := by
  have hlt := char_toNat_lt c
  unfold utf8EncodeChar at hk ⊢
  by_cases g1 : c.toNat < 0x80
  · rw [if_pos g1] at hk
    simp at hk
    omega
  · rw [if_neg g1] at hk ⊢
    by_cases g2 : c.toNat < 0x800
    · rw [if_pos g2] at hk ⊢
      have e0 := seqLen_lead2 c.toNat (by omega) g2
      have hk1 : k = 1 := by simp at hk; omega
      subst hk1
      simp [decodeBytes, decodeByte, decodeGround, e0]
    · rw [if_neg g2] at hk ⊢
      by_cases g3 : c.toNat < 0x10000
      · rw [if_pos g3] at hk ⊢
        have e0 := seqLen_lead3 c.toNat (by omega) g3
        have hk1 : k = 1 ∨ k = 2 := by simp at hk; omega
        rcases hk1 with rfl | rfl <;>
          simp [decodeBytes, decodeByte, decodeGround, e0, isCont_byte]
      · rw [if_neg g3] at hk ⊢
        have e0 := seqLen_lead4 c.toNat (by omega) hlt
        have hk1 : k = 1 ∨ k = 2 ∨ k = 3 := by simp at hk; omega
        rcases hk1 with rfl | rfl | rfl <;>
          simp [decodeBytes, decodeByte, decodeGround, e0, isCont_byte]

/-- The UTF-16 width of a character is at most two. -/
theorem utf16Width_le_two (c : Char) : utf16Width c ≤ 2 := by
  unfold utf16Width
  split <;> omega

/-- C7 as amended: the one decoder instance threaded through the loop
reassembles a multi-byte character split anywhere across two adjacent
chunks: the loop forwards the exact encoding, counts the character exactly
as its UTF-16 width (one for a BMP character, two for an astral one, the
same as when unsplit), and closes at upstream end with an empty pending
buffer. -/
theorem split_char_counted_once (c : Char) (k cap : Nat)
    (hk0 : 0 < k) (hk : k < (utf8EncodeChar c).length) (hcap : 2 ≤ cap) :
    push cap [ReadEvent.chunk ((utf8EncodeChar c).take k),
        ReadEvent.chunk ((utf8EncodeChar c).drop k)] 0 []
      = ⟨utf8EncodeChar c, StreamEnd.closed, 2, [0, utf16Width c],
          utf16Width c, []⟩ := by
  have hpre := decodeBytes_encodeChar_take c k hk0 hk
  have hw := utf16Width_le_two c
  have hfull : decodeBytes ((utf8EncodeChar c).take k)
      ((utf8EncodeChar c).drop k) = ([c], []) := by
    have h := decodeBytes_append [] ((utf8EncodeChar c).take k)
      ((utf8EncodeChar c).drop k)
    rw [List.take_append_drop, decodeBytes_encodeChar c, hpre] at h
    simp only [List.nil_append] at h
    rw [Prod.ext_iff]
    exact ⟨h.symm ▸ rfl, h.symm ▸ rfl⟩
  simp only [push, hpre, hfull]
  rw [if_neg (by simp [jsLength])]
  rw [if_neg (by simp [jsLength]; omega)]
  simp [jsLength, List.take_append_drop]

/-- Witness for C7 as amended: the euro sign (U+20AC, three UTF-8 bytes)
split after its second byte is reassembled across the boundary, forwarded
verbatim and counted exactly once. -/
theorem split_char_counted_once_witness :
    (0 < 2 ∧ 2 < (utf8EncodeChar (Char.ofNat 0x20AC)).length ∧ (2:Nat) ≤ 5000) ∧
    push 5000 [ReadEvent.chunk ((utf8EncodeChar (Char.ofNat 0x20AC)).take 2),
        ReadEvent.chunk ((utf8EncodeChar (Char.ofNat 0x20AC)).drop 2)] 0 []
      = ⟨[226, 130, 172], StreamEnd.closed, 2, [0, 1], 1, []⟩ :=
  ⟨⟨by decide, by decide, by decide⟩, by
    exact split_char_counted_once (Char.ofNat 0x20AC) 2 5000
      (by decide) (by decide) (by decide)⟩

/-- Counterexample to C7 as stated. First conjunct: the decoder is NOT
flushed at stream end — a trailing incomplete sequence (the first two
bytes of the euro sign) is still sitting in the pending buffer when the
loop closes the stream, where a flush would have consumed it. Second
conjunct: a four-byte character (U+1D11E) split across two chunks is
counted as two toward the cap, not one, because the counter measures
UTF-16 code units and an astral character occupies a surrogate pair. -/
theorem decoder_unflushed_and_astral_count :
    (push 5000 [ReadEvent.chunk [226, 130]] 0 []).finalPending = [226, 130] ∧
    (push 5000 [ReadEvent.chunk [226, 130]] 0 []).ending = StreamEnd.closed ∧
    (push 5000 [ReadEvent.chunk [240, 157], ReadEvent.chunk [132, 158]] 0
        []).finalTotal = 2 :=
  ⟨rfl, rfl, rfl⟩

end LlmProxy
